import Mathlib

/-!
Verification of the Ollama chatbot (`src/main.py`): a shallow embedding of
the `ChatManager` class and the `main` chat loop, with theorems about the
conversation engine, the session lifecycle and the transcript persistence.

The external language model (the `Ollama` object) is modelled as an
abstract function `String → Except String String`: it receives the fully
formatted prompt and either returns generated text or raises an error.
The `chat_histories` directory is modelled as an association list from
file names to parse results: `some j` stands for a file whose text parses
as the JSON value `j`, and `none` stands for a malformed file whose parse
raises `JSONDecodeError`.
-/

namespace OllamaChatbot

/-- The `role` field of a chat message: `"user"` or `"assistant"`. -/
inductive Role where
  | user : Role
  | assistant : Role
deriving DecidableEq

/-- A chat message, as the dict `{"role": ..., "content": ...}` used in
`st.session_state.messages`. -/
structure Message where
  role : Role
  content : String
deriving DecidableEq

/-- JSON values, as produced by `json.dump` and consumed by `json.load`.
Only the constructors the program can produce or observe are needed. -/
inductive Json where
  | str : String → Json
  | arr : List Json → Json
  | obj : List (String × Json) → Json

/-- Python's `s.endswith(post)`: the characters of `post` are a suffix of
the characters of `s`. -/
def pyEndsWith (s post : String) : Bool :=
  post.data.isSuffixOf s.data

/-! ## The conversation engine: `ChatManager.__init__` and `generate_response` -/

/-- The fixed instruction template up to the `{context}` slot. -/
def templatePart1 : String :=
  "\n        You are a helpful AI assistant. \n        Conversation History: "

/-- The fixed instruction template between the `{context}` and `{question}` slots. -/
def templatePart2 : String :=
  "\n        \n        Answer the following question based on the context:\n        Question: "

/-- The fixed instruction template after the `{question}` slot. -/
def templatePart3 : String :=
  "\n        \n        Helpful Answer:"

/-- `PromptTemplate` formatting: the template with `{context}` and
`{question}` replaced by the given values. -/
def buildPrompt (context question : String) : String :=
  templatePart1 ++ context ++ templatePart2 ++ question ++ templatePart3

/-- `StrOutputParser` applied to the model's string output: the identity. -/
def strOutputParser (s : String) : String := s

/-- `self.chain.invoke({"context": context, "question": question})`:
format the prompt, call the model, parse the output. -/
def chainInvoke (model : String → Except String String)
    (context question : String) : Except String String :=
  (model (buildPrompt context question)).map strOutputParser

/-- The fallback string returned by `generate_response` when the chain raises. -/
def fallbackMessage : String :=
  "I'm sorry, but I encountered an error while processing your request."

/-- `ChatManager.generate_response`: invoke the chain; on success return the
result, on any exception report it and return the fallback string. -/
def generate_response (model : String → Except String String)
    (context user_input : String) : String :=
  match chainInvoke model context user_input with
  | Except.ok result => result
  | Except.error _ => fallbackMessage

/-! ## The chat loop in `main` -/

/-- One line of the context string: `f"User: {content}"` for a user message,
`f"AI: {content}"` for an assistant message. -/
def renderMessage (msg : Message) : String :=
  if msg.role = Role.user then "User: " ++ msg.content else "AI: " ++ msg.content

/-- `"\n".join(...)` over the rendered messages. -/
def renderContext (messages : List Message) : String :=
  String.intercalate "\n" (messages.map renderMessage)

/-- The context string `main` passes to `generate_response`: it is built from
`st.session_state.messages` after the new user message has been appended. -/
def turnContext (messages : List Message) (prompt : String) : String :=
  renderContext (messages ++ [⟨Role.user, prompt⟩])

/-- One turn of the chat loop in `main`: append the user message, build the
context, generate a response, append the assistant message. -/
def processTurn (model : String → Except String String)
    (messages : List Message) (prompt : String) : List Message :=
  let withUser := messages ++ [⟨Role.user, prompt⟩]
  let response := generate_response model (renderContext withUser) prompt
  withUser ++ [⟨Role.assistant, response⟩]

/-- The chat loop over a sequence of user inputs, starting from the empty
session created by `st.session_state.messages = []`. -/
def chatLoop (model : String → Except String String)
    (inputs : List String) : List Message :=
  inputs.foldl (processTurn model) []

/-! ## Persistence: `save_chat_history` and `load_chat_histories` -/

/-- The parse result of one file's text: `some j` for text parsing as `j`,
`none` for malformed text. -/
abbrev FileContent := Option Json

/-- The `chat_histories` directory: file names with their contents, in the
(arbitrary) order `os.listdir` reports them. -/
abbrev Directory := List (String × FileContent)

/-- `open(filename, "w")` followed by a full write: replace the contents if
the name exists, otherwise create the file. -/
def writeFile : Directory → String → FileContent → Directory
  | [], name, content => [(name, content)]
  | (n, c) :: rest, name, content =>
    if n = name then (name, content) :: rest
    else (n, c) :: writeFile rest name content

/-- Read a file's contents by name. -/
def readFile : Directory → String → Option FileContent
  | [], _ => none
  | (n, c) :: rest, name => if n = name then some c else readFile rest name

/-- The JSON text of a role: `"user"` or `"assistant"`. -/
def encodeRole : Role → String
  | Role.user => "user"
  | Role.assistant => "assistant"

/-- `json.dump` of one message dict. -/
def encodeMessage (m : Message) : Json :=
  Json.obj [("role", Json.str (encodeRole m.role)), ("content", Json.str m.content)]

/-- `json.dump` of the whole message list. -/
def encodeSession (session : List Message) : Json :=
  Json.arr (session.map encodeMessage)

/-- Dict field access, as in `entry['role']`. -/
def lookupField : List (String × Json) → String → Option Json
  | [], _ => none
  | (k, v) :: rest, key => if k = key then some v else lookupField rest key

/-- Read a role back from its JSON text. -/
def decodeRole (s : String) : Option Role :=
  if s = "user" then some Role.user
  else if s = "assistant" then some Role.assistant
  else none

/-- Read one message back from its JSON object. -/
def decodeMessage : Json → Option Message
  | Json.obj fields =>
    match lookupField fields "role", lookupField fields "content" with
    | some (Json.str r), some (Json.str c) =>
      match decodeRole r with
      | some role => some ⟨role, c⟩
      | none => none
    | _, _ => none
  | _ => none

/-- Read a message list back from its JSON array. -/
def decodeSession : Json → Option (List Message)
  | Json.arr items => items.mapM decodeMessage
  | _ => none

/-- `ChatManager.save_chat_history`: write the serialized session to
`chat_histories/chat_<timestamp>.json` and return that path. The timestamp
is `datetime.now().strftime("%Y%m%d_%H%M%S")`, passed here as an argument
since it is read from the wall clock. -/
def save_chat_history (dir : Directory) (timestamp : String)
    (chat_history : List Message) : Directory × String :=
  let filename := "chat_" ++ timestamp ++ ".json"
  (writeFile dir filename (some (encodeSession chat_history)),
   "chat_histories/" ++ filename)

/-- The loop body of `load_chat_histories`: walk the directory listing,
keep the `.json` files, parse each one; a failing parse raises
`JSONDecodeError` out of the whole loop. -/
def loadEntries : Directory → Except String (List (String × Json))
  | [] => Except.ok []
  | (filename, content) :: rest =>
    if pyEndsWith filename ".json" then
      match content with
      | none => Except.error ("JSONDecodeError in " ++ filename)
      | some data =>
        match loadEntries rest with
        | Except.ok tail => Except.ok ((filename, data) :: tail)
        | Except.error e => Except.error e
    else loadEntries rest

/-- `ChatManager.load_chat_histories`: parse every `.json` file, then
return `sorted(..., key=lambda x: x['filename'], reverse=True)`. -/
def load_chat_histories (dir : Directory) : Except String (List (String × Json)) :=
  match loadEntries dir with
  | Except.ok entries =>
    Except.ok (entries.mergeSort (fun a b => decide (b.1 ≤ a.1)))
  | Except.error e => Except.error e

/-! ## Helper lemmas -/

theorem pyEndsWith_append (s t : String) : pyEndsWith (s ++ t) t = true := by
  simp [pyEndsWith]

theorem intercalate_go_concat (x s : String) :
    ∀ (as : List String) (acc : String),
      String.intercalate.go acc s (as ++ [x]) =
        String.intercalate.go acc s as ++ s ++ x
  | [], acc => rfl
  | a :: as, acc => by
    rw [List.cons_append]
    show String.intercalate.go (acc ++ s ++ a) s (as ++ [x]) = _
    rw [intercalate_go_concat x s as (acc ++ s ++ a)]
    rfl

theorem intercalate_concat (s x : String) (xs : List String) :
    String.intercalate s (xs ++ [x]) =
      (if xs = [] then "" else String.intercalate s xs ++ s) ++ x := by
  cases xs with
  | nil => rfl
  | cons a as =>
    show String.intercalate.go a s (as ++ [x]) = _
    rw [intercalate_go_concat]
    simp [String.intercalate, String.append_assoc]

/-- The `role` sequence produced by `n` complete turns. -/
def userAssistantPattern : Nat → List Role
  | 0 => []
  | n + 1 => Role.user :: Role.assistant :: userAssistantPattern n

theorem userAssistantPattern_length (n : Nat) :
    (userAssistantPattern n).length = 2 * n := by
  induction n with
  | zero => rfl
  | succ k ih => simp [userAssistantPattern, ih]; omega

theorem roles_foldl (model : String → Except String String) :
    ∀ (inputs : List String) (msgs : List Message),
      (inputs.foldl (processTurn model) msgs).map Message.role =
        msgs.map Message.role ++ userAssistantPattern inputs.length
  | [], msgs => by simp [userAssistantPattern]
  | i :: rest, msgs => by
    rw [List.foldl_cons, roles_foldl model rest]
    simp [processTurn, userAssistantPattern]

/-! ## C3: error handling of `generate_response` -/

/-- C3: for every context and question, if the model invocation raises any
error, `generate_response` returns exactly the literal fallback string and
never propagates the error (it is total and `String`-valued); if the model
invocation succeeds, the model output is returned, not the fallback. -/
theorem generate_response_error_fallback (model : String → Except String String)
    (context question : String) :
    (∀ e, model (buildPrompt context question) = Except.error e →
      generate_response model context question = fallbackMessage) ∧
    (∀ output, model (buildPrompt context question) = Except.ok output →
      generate_response model context question = output) := by
  constructor
  · intro e h
    simp [generate_response, chainInvoke, h, Except.map]
  · intro output h
    simp [generate_response, chainInvoke, h, strOutputParser, Except.map]

/-- C3 witness: a model that always raises yields the fallback string, and a
model that succeeds yields its own output. -/
theorem generate_response_error_fallback_witness :
    generate_response (fun _ => Except.error "ConnectionError") "User: hi" "how are you?" =
      fallbackMessage ∧
    generate_response (fun _ => Except.ok "Fine, thanks!") "User: hi" "how are you?" =
      "Fine, thanks!" :=
  ⟨(generate_response_error_fallback (fun _ => Except.error "ConnectionError")
      "User: hi" "how are you?").1 "ConnectionError" rfl,
   (generate_response_error_fallback (fun _ => Except.ok "Fine, thanks!")
      "User: hi" "how are you?").2 "Fine, thanks!" rfl⟩

/-! ## C4: prompt construction and output passthrough -/

/-- C4: for every context and question, when the model call succeeds the
model is invoked with a prompt containing both the context and the question
verbatim as substrings of the fixed template, and `generate_response`
returns exactly the model's textual output unmodified. -/
theorem generate_response_success (model : String → Except String String)
    (context question output : String)
    (h : model (buildPrompt context question) = Except.ok output) :
    generate_response model context question = output ∧
    (∃ pre post, buildPrompt context question = pre ++ context ++ post) ∧
    (∃ pre post, buildPrompt context question = pre ++ question ++ post) := by
  refine ⟨?_, ?_, ?_⟩
  · simp [generate_response, chainInvoke, h, strOutputParser, Except.map]
  · refine ⟨templatePart1, templatePart2 ++ question ++ templatePart3, ?_⟩
    simp [buildPrompt, String.append_assoc]
  · exact ⟨templatePart1 ++ context ++ templatePart2, templatePart3, by rfl⟩

/-- C4 witness: with the spec's example context and question and an echoing
model, the response equals the model output. -/
theorem generate_response_success_witness :
    generate_response (fun p => Except.ok ("model output for: " ++ p))
      "User: hi\nAI: hello" "how are you?" =
      "model output for: " ++ buildPrompt "User: hi\nAI: hello" "how are you?" :=
  (generate_response_success (fun p => Except.ok ("model output for: " ++ p))
    "User: hi\nAI: hello" "how are you?"
    ("model output for: " ++ buildPrompt "User: hi\nAI: hello" "how are you?") rfl).1

/-! ## C5: the context string passed each turn -/

/-- C5 counterexample: the claim says the context is built from the messages
prior to the newest user message and does not contain it; but with an empty
prior session and input `"hi"` the code passes `"User: hi"`, not the empty
rendering of the prior session. -/
theorem turnContext_counterexample :
    turnContext [] "hi" = "User: hi" ∧
    renderContext [] = "" ∧
    turnContext [] "hi" ≠ renderContext [] := by
  refine ⟨rfl, rfl, ?_⟩
  decide

/-- C5 amended: the context passed to the engine is the rendering of all
prior messages followed by the newest user message as a final
`"User: ..."` line (so the newest user message does appear in the context),
and the question argument is the newest user message's content. -/
theorem turnContext_includes_newest_user (messages : List Message) (prompt : String) :
    turnContext messages prompt =
      (if messages = [] then "" else renderContext messages ++ "\n") ++
        ("User: " ++ prompt) ∧
    processTurn model messages prompt =
      messages ++ [⟨Role.user, prompt⟩,
        ⟨Role.assistant,
          generate_response model (turnContext messages prompt) prompt⟩] := by
  constructor
  · show renderContext (messages ++ [⟨Role.user, prompt⟩]) = _
    unfold renderContext
    rw [List.map_append, List.map_cons, List.map_nil]
    have hrm : renderMessage ⟨Role.user, prompt⟩ = "User: " ++ prompt := by
      simp [renderMessage]
    rw [hrm, intercalate_concat]
    by_cases hm : messages = []
    · simp [hm, renderContext]
    · simp [hm, renderContext, List.map_eq_nil_iff]
  · simp [processTurn, turnContext, generate_response]

/-! ## C2: session shape after N turns -/

/-- C2: starting from an empty session, after processing `N` user inputs the
session holds exactly `2N` messages alternating user and assistant starting
with user, and each turn only appends to the existing messages. -/
theorem chatLoop_session_shape (model : String → Except String String)
    (inputs : List String) :
    (chatLoop model inputs).length = 2 * inputs.length ∧
    (chatLoop model inputs).map Message.role = userAssistantPattern inputs.length ∧
    ∀ (msgs : List Message) (prompt : String),
      ∃ rest, processTurn model msgs prompt = msgs ++ rest := by
  have hroles : (chatLoop model inputs).map Message.role =
      userAssistantPattern inputs.length := by
    have := roles_foldl model inputs []
    simpa [chatLoop] using this
  refine ⟨?_, hroles, ?_⟩
  · calc (chatLoop model inputs).length
        = ((chatLoop model inputs).map Message.role).length := by
          rw [List.length_map]
      _ = (userAssistantPattern inputs.length).length := by rw [hroles]
      _ = 2 * inputs.length := userAssistantPattern_length inputs.length
  · intro msgs prompt
    exact ⟨[⟨Role.user, prompt⟩,
      ⟨Role.assistant,
        generate_response model (renderContext (msgs ++ [⟨Role.user, prompt⟩])) prompt⟩],
      by simp [processTurn]⟩

/-! ## C9: loading from an empty directory -/

/-- C9: `load_chat_histories` on an empty directory returns the empty
sequence and does not raise an error. -/
theorem load_chat_histories_empty : load_chat_histories [] = Except.ok [] := by
  simp [load_chat_histories, loadEntries]

/-! ## Persistence helper lemmas -/

theorem mem_writeFile_self :
    ∀ (dir : Directory) (name : String) (content : FileContent),
      (name, content) ∈ writeFile dir name content
  | [], _, _ => by simp [writeFile]
  | (n, c) :: rest, name, content => by
    simp only [writeFile]
    split
    · exact List.mem_cons_self _ _
    · exact List.mem_cons_of_mem _ (mem_writeFile_self rest name content)

theorem writeFile_writeFile :
    ∀ (dir : Directory) (name : String) (c c' : FileContent),
      writeFile (writeFile dir name c) name c' = writeFile dir name c'
  | [], name, c, c' => by simp [writeFile]
  | (n, d) :: rest, name, c, c' => by
    by_cases h : n = name
    · simp [writeFile, h]
    · simp [writeFile, h, writeFile_writeFile rest name c c']

theorem map_fst_writeFile :
    ∀ (dir : Directory) (name : String) (c c' : FileContent),
      (writeFile dir name c).map Prod.fst = (writeFile dir name c').map Prod.fst
  | [], name, c, c' => rfl
  | (n, d) :: rest, name, c, c' => by
    by_cases h : n = name
    · simp [writeFile, h]
    · simp [writeFile, h, map_fst_writeFile rest name c c']

theorem readFile_writeFile_self :
    ∀ (dir : Directory) (name : String) (c : FileContent),
      readFile (writeFile dir name c) name = some c
  | [], name, c => by simp [writeFile, readFile]
  | (n, d) :: rest, name, c => by
    by_cases h : n = name
    · simp [writeFile, readFile, h]
    · simp [writeFile, readFile, h, readFile_writeFile_self rest name c]

theorem loadEntries_mem :
    ∀ (dir : Directory) (l : List (String × Json)) (name : String) (j : Json),
      (name, some j) ∈ dir → pyEndsWith name ".json" = true →
      loadEntries dir = Except.ok l → (name, j) ∈ l
  | [], l, name, j => by intro hmem; cases hmem
  | (fn, c) :: rest, l, name, j => by
    intro hmem hjson hload
    rcases List.mem_cons.mp hmem with heq | htail
    · rw [Prod.mk.injEq] at heq
      obtain ⟨hfn, hc⟩ := heq
      subst hfn
      subst hc
      simp only [loadEntries, hjson, if_true] at hload
      cases hrest : loadEntries rest with
      | ok tail =>
        rw [hrest] at hload
        cases hload
        exact List.mem_cons_self _ _
      | error e => rw [hrest] at hload; cases hload
    · by_cases hfn : pyEndsWith fn ".json" = true
      · simp only [loadEntries, hfn, if_true] at hload
        cases c with
        | none => cases hload
        | some d =>
          cases hrest : loadEntries rest with
          | ok tail =>
            rw [hrest] at hload
            cases hload
            exact List.mem_cons_of_mem _
              (loadEntries_mem rest tail name j htail hjson hrest)
          | error e => rw [hrest] at hload; cases hload
      · simp only [loadEntries, hfn, if_false, Bool.not_eq_true] at hload
        rw [if_neg (by simp [hfn])] at hload
        exact loadEntries_mem rest l name j htail hjson hload

theorem loadEntries_all_json :
    ∀ (dir : Directory) (l : List (String × Json)),
      loadEntries dir = Except.ok l → ∀ e ∈ l, pyEndsWith e.1 ".json" = true
  | [], l => by intro hload e he; cases hload; cases he
  | (fn, c) :: rest, l => by
    intro hload e he
    by_cases hfn : pyEndsWith fn ".json" = true
    · simp only [loadEntries, hfn, if_true] at hload
      cases c with
      | none => cases hload
      | some d =>
        cases hrest : loadEntries rest with
        | ok tail =>
          rw [hrest] at hload
          cases hload
          rcases List.mem_cons.mp he with heq | htail
          · rw [heq]; exact hfn
          · exact loadEntries_all_json rest tail hrest e htail
        | error msg => rw [hrest] at hload; cases hload
    · simp only [loadEntries] at hload
      rw [if_neg (by simp [hfn])] at hload
      exact loadEntries_all_json rest l hload e he

theorem loadEntries_skips :
    ∀ (before : Directory) (name : String) (content : FileContent)
      (after : Directory), pyEndsWith name ".json" = false →
      loadEntries (before ++ (name, content) :: after) = loadEntries (before ++ after)
  | [], name, content, after => by
    intro hname
    simp only [List.nil_append, loadEntries]
    rw [if_neg (by simp [hname])]
  | (fn, c) :: rest, name, content, after => by
    intro hname
    have ih := loadEntries_skips rest name content after hname
    show loadEntries ((fn, c) :: (rest ++ (name, content) :: after)) =
      loadEntries ((fn, c) :: (rest ++ after))
    simp only [loadEntries, ih]

theorem decodeMessage_encodeMessage (m : Message) :
    decodeMessage (encodeMessage m) = some m := by
  cases m with
  | mk role content => cases role <;> rfl

theorem decodeSession_encodeSession (session : List Message) :
    decodeSession (encodeSession session) = some session := by
  induction session with
  | nil => rfl
  | cons m rest ih =>
    simp only [decodeSession, encodeSession, List.map_cons] at ih ⊢
    rw [List.mapM_cons, decodeMessage_encodeMessage m, ih]
    rfl

theorem load_singleton (name : String) (j : Json)
    (hname : pyEndsWith name ".json" = true) :
    load_chat_histories [(name, some j)] = Except.ok [(name, j)] := by
  simp [load_chat_histories, loadEntries, hname]

/-! ## C1: save followed by loadAll returns the saved transcript -/

/-- C1: after saving a session with `save_chat_history`, whenever
`load_chat_histories` succeeds its results include a transcript for the
saved file whose message sequence is exactly the saved session, element for
element and in order (its data is the session's encoding, which decodes
back to the session). -/
theorem save_then_load_roundtrip (dir : Directory) (timestamp : String)
    (session : List Message) (loaded : List (String × Json))
    (h : load_chat_histories (save_chat_history dir timestamp session).1 =
      Except.ok loaded) :
    ∃ entry ∈ loaded,
      entry.1 = "chat_" ++ timestamp ++ ".json" ∧
      entry.2 = encodeSession session ∧
      decodeSession entry.2 = some session := by
  unfold load_chat_histories at h
  cases he : loadEntries (save_chat_history dir timestamp session).1 with
  | error e => rw [he] at h; cases h
  | ok entries =>
    rw [he] at h
    cases h
    have hjson : pyEndsWith ("chat_" ++ timestamp ++ ".json") ".json" = true :=
      pyEndsWith_append ("chat_" ++ timestamp) ".json"
    have hmem : ("chat_" ++ timestamp ++ ".json", encodeSession session) ∈ entries := by
      refine loadEntries_mem _ entries _ (encodeSession session) ?_ hjson he
      exact mem_writeFile_self dir _ (some (encodeSession session))
    refine ⟨("chat_" ++ timestamp ++ ".json", encodeSession session), ?_, rfl, rfl,
      decodeSession_encodeSession session⟩
    exact List.mem_mergeSort.mpr hmem

/-- C1 witness: saving a two-message session into an empty directory and
loading yields exactly that transcript. -/
theorem save_then_load_roundtrip_witness :
    ∃ entry ∈ [("chat_20240101_120000.json",
        encodeSession [⟨Role.user, "hi"⟩, ⟨Role.assistant, "hello"⟩])],
      entry.1 = "chat_" ++ "20240101_120000" ++ ".json" ∧
      entry.2 = encodeSession [⟨Role.user, "hi"⟩, ⟨Role.assistant, "hello"⟩] ∧
      decodeSession entry.2 =
        some [⟨Role.user, "hi"⟩, ⟨Role.assistant, "hello"⟩] :=
  save_then_load_roundtrip [] "20240101_120000"
    [⟨Role.user, "hi"⟩, ⟨Role.assistant, "hello"⟩] _
    (load_singleton "chat_20240101_120000.json"
      (encodeSession [⟨Role.user, "hi"⟩, ⟨Role.assistant, "hello"⟩]) (by decide))

/-! ## C6: timestamp-derived identifier and same-second overwrite -/

/-- C6: the file identifier is derived solely from the timestamp, as
`chat_<timestamp>.json` inside `chat_histories`, and is returned; two saves
with the same timestamp return the same identifier, leave the same file
names on disk, and the second save's contents overwrite the first's. -/
theorem save_timestamp_identifier (dir : Directory) (timestamp : String)
    (s1 s2 : List Message) :
    (save_chat_history dir timestamp s1).2 =
      "chat_histories/" ++ ("chat_" ++ timestamp ++ ".json") ∧
    (save_chat_history (save_chat_history dir timestamp s1).1 timestamp s2).2 =
      (save_chat_history dir timestamp s1).2 ∧
    ((save_chat_history (save_chat_history dir timestamp s1).1 timestamp s2).1).map
        Prod.fst =
      ((save_chat_history dir timestamp s1).1).map Prod.fst ∧
    readFile (save_chat_history (save_chat_history dir timestamp s1).1 timestamp s2).1
        ("chat_" ++ timestamp ++ ".json") =
      some (some (encodeSession s2)) := by
  refine ⟨rfl, rfl, ?_, ?_⟩
  · show (writeFile (writeFile dir _ _) _ _).map Prod.fst = _
    rw [writeFile_writeFile]
    exact map_fst_writeFile dir _ _ _
  · show readFile (writeFile (writeFile dir _ _) _ _) _ = _
    rw [writeFile_writeFile]
    exact readFile_writeFile_self dir _ _

/-! ## C7: results sorted by file identifier descending -/

/-- C7: whenever `load_chat_histories` succeeds, its result is the parsed
transcripts (a permutation of the parse of the directory listing) sorted by
file identifier in descending lexicographic order. -/
theorem load_sorted_descending (dir : Directory) (loaded : List (String × Json))
    (h : load_chat_histories dir = Except.ok loaded) :
    List.Pairwise (fun a b : String × Json => b.1 ≤ a.1) loaded ∧
    ∃ entries, loadEntries dir = Except.ok entries ∧ loaded.Perm entries := by
  unfold load_chat_histories at h
  cases he : loadEntries dir with
  | error e => rw [he] at h; cases h
  | ok entries =>
    rw [he] at h
    cases h
    constructor
    · have hs := @List.sorted_mergeSort (String × Json)
        (fun a b : String × Json => decide (b.1 ≤ a.1))
        (fun a b c hab hbc => by
          simp only [decide_eq_true_eq] at *
          exact le_trans hbc hab)
        (fun a b => by
          simp only [Bool.or_eq_true, decide_eq_true_eq]
          exact le_total b.1 a.1)
        entries
      exact hs.imp (fun hab => of_decide_eq_true hab)
    · exact ⟨entries, rfl, List.mergeSort_perm entries _⟩

/-- C7 witness: loading a directory holding one transcript file yields a
sorted singleton that is a permutation of the parsed listing. -/
theorem load_sorted_descending_witness :
    List.Pairwise (fun a b : String × Json => b.1 ≤ a.1)
      [("chat_20240102_000000.json", Json.arr [])] ∧
    ∃ entries,
      loadEntries [("chat_20240102_000000.json", some (Json.arr []))] =
        Except.ok entries ∧
      List.Perm [("chat_20240102_000000.json", Json.arr [])] entries :=
  load_sorted_descending [("chat_20240102_000000.json", some (Json.arr []))] _
    (load_singleton "chat_20240102_000000.json" (Json.arr []) (by decide))

/-! ## C8: a malformed .json file fails the whole load -/

/-- C8: if any `.json` file in the directory is malformed, the whole
`load_chat_histories` call fails with an error and returns no transcripts. -/
theorem load_fails_on_malformed (dir : Directory)
    (h : ∃ e ∈ dir, pyEndsWith e.1 ".json" = true ∧ e.2 = none) :
    ∃ msg, load_chat_histories dir = Except.error msg := by
  suffices hs : ∃ msg, loadEntries dir = Except.error msg by
    obtain ⟨msg, hmsg⟩ := hs
    exact ⟨msg, by rw [load_chat_histories, hmsg]⟩
  induction dir with
  | nil => obtain ⟨e, he, _⟩ := h; cases he
  | cons hd rest ih =>
    obtain ⟨e, he, hejson, henone⟩ := h
    rcases List.mem_cons.mp he with heq | htail
    · subst heq
      obtain ⟨fn, c⟩ := e
      simp only at hejson henone
      subst henone
      exact ⟨"JSONDecodeError in " ++ fn, by simp [loadEntries, hejson]⟩
    · obtain ⟨m, hm⟩ := ih ⟨e, htail, hejson, henone⟩
      obtain ⟨fn, c⟩ := hd
      by_cases hfn : pyEndsWith fn ".json" = true
      · cases c with
        | none => exact ⟨"JSONDecodeError in " ++ fn, by simp [loadEntries, hfn]⟩
        | some d => exact ⟨m, by simp [loadEntries, hfn, hm]⟩
      · refine ⟨m, ?_⟩
        simp only [loadEntries]
        rw [if_neg (by simp [hfn])]
        exact hm

/-- C8 witness: a directory holding one malformed `.json` file makes the
load fail. -/
theorem load_fails_on_malformed_witness :
    ∃ msg, load_chat_histories [("broken.json", none)] = Except.error msg :=
  load_fails_on_malformed [("broken.json", none)]
    ⟨("broken.json", none), List.mem_singleton.mpr rfl, by decide, rfl⟩

/-! ## C10: non-.json files are ignored entirely -/

/-- C10: a file whose name does not end in `.json` is never opened, parsed
or returned: inserting it anywhere in the directory leaves the result of
`load_chat_histories` unchanged (even if its contents are malformed), and
every returned entry's name ends in `.json`. -/
theorem load_ignores_non_json (before after : Directory) (name : String)
    (content : FileContent) (hname : pyEndsWith name ".json" = false) :
    load_chat_histories (before ++ (name, content) :: after) =
      load_chat_histories (before ++ after) ∧
    ∀ loaded,
      load_chat_histories (before ++ (name, content) :: after) =
        Except.ok loaded →
      ∀ e ∈ loaded, pyEndsWith e.1 ".json" = true := by
  have hskip := loadEntries_skips before name content after hname
  constructor
  · rw [load_chat_histories, load_chat_histories, hskip]
  · intro loaded h e he
    rw [load_chat_histories, hskip] at h
    cases hl : loadEntries (before ++ after) with
    | error msg => rw [hl] at h; cases h
    | ok entries =>
      rw [hl] at h
      cases h
      exact loadEntries_all_json _ entries hl e (List.mem_mergeSort.mp he)

/-- C10 witness: a malformed non-`.json` file sitting next to a transcript
does not change the load result. -/
theorem load_ignores_non_json_witness :
    load_chat_histories
        [("chat_20240103_000000.json", some (Json.arr [])), ("notes.txt", none)] =
      load_chat_histories [("chat_20240103_000000.json", some (Json.arr []))] :=
  (load_ignores_non_json [("chat_20240103_000000.json", some (Json.arr []))] []
    "notes.txt" none (by decide)).1

end OllamaChatbot
